import Mathlib

/-!
A verification development for the asynchronous MongoDB driver prototype
(the Tornado-based driver and its synchronous bridge).  The repository
ships the test suites; the driver itself is modelled here, faithful to the
specification document, and the testable properties are settled against
that model.
-/

namespace AsyncMongo

/-- Modelled from the spec: the error taxonomy of section 7 (the driver
module pymongo.tornado_async.async and the bridge are not in the sources;
only their tests are).  Errors are tagged by kind: duplicate-key
violation, network failure, timeout, precondition violation. -/
inductive Err where
  | duplicateKey
  | network
  | timeout
  | precondition
deriving DecidableEq, Repr

/-- Modelled from the spec: an Operation Envelope completion carries
exactly one of (result, error), never both, never neither. -/
inductive Completion (α ε : Type) where
  | success (a : α)
  | failure (e : ε)
deriving DecidableEq, Repr

/-- The result slot of the (result, error) pair handed to a callback. -/
def Completion.resultOpt {α ε : Type} : Completion α ε → Option α
  | .success a => some a
  | .failure _ => none

/-- The error slot of the (result, error) pair handed to a callback. -/
def Completion.errorOpt {α ε : Type} : Completion α ε → Option ε
  | .success _ => none
  | .failure e => some e

/-- The (result, error) pair delivered to the completion callback. -/
def Completion.delivered {α ε : Type} (c : Completion α ε) : Option α × Option ε :=
  (c.resultOpt, c.errorOpt)

/-- Exactly one component of a delivered (result, error) pair is non-null. -/
def ExactlyOne {α ε : Type} (p : Option α × Option ε) : Prop :=
  (p.1.isSome = true ∧ p.2 = none) ∨ (p.1 = none ∧ p.2.isSome = true)

/-- Modelled from the spec: a stored document of the test collection,
with its `_id` and the field `s` that carries a unique index. -/
structure Doc where
  id : Nat
  s : Nat
  foo : Option Nat := none
deriving DecidableEq, Repr

/-- A new document violates a unique index when an existing document
shares its `_id` or its `s` value. -/
def violatesUnique (coll : List Doc) (d : Doc) : Bool :=
  coll.any (fun e => e.id == d.id || e.s == d.s)

/-- Modelled from the spec: insert of a single document (the facade
method of the missing driver module).  On a uniqueness violation the
envelope fails with a duplicate-key error; otherwise the document is
persisted and the completion carries the inserted id. -/
def insert_one (coll : List Doc) (d : Doc) : List Doc × Completion Nat Err :=
  if violatesUnique coll d then (coll, .failure .duplicateKey)
  else (coll ++ [d], .success d.id)

/-- Outcome of a bulk insert: the resulting collection, the trace of
documents whose writes were actually issued (in issue order), and the
single completion delivered to the consumer. -/
structure InsertManyOutcome where
  coll : List Doc
  attempted : List Doc
  completion : Completion (List Nat) Err
deriving DecidableEq, Repr

/-- Modelled from the spec: ordered fail-fast bulk insert of the missing
driver module.  Writes are issued in input order; on the first failure no
further writes are attempted and the failure is the only value
delivered; prior successes stay persisted. -/
def insert_many (coll : List Doc) : List Doc → InsertManyOutcome
  | [] => ⟨coll, [], .success []⟩
  | d :: rest =>
    if violatesUnique coll d then ⟨coll, [d], .failure .duplicateKey⟩
    else
      let out := insert_many (coll ++ [d]) rest
      ⟨out.coll, d :: out.attempted,
        match out.completion with
        | .success ids => .success (d.id :: ids)
        | .failure e => .failure e⟩

/-- Every document of the list inserts without a uniqueness violation
when inserted in order into the given collection. -/
def insertsCleanly (coll : List Doc) : List Doc → Bool
  | [] => true
  | d :: rest => !violatesUnique coll d && insertsCleanly (coll ++ [d]) rest

/-- The argument of the insert facade: one document or a sequence. -/
inductive InsertInput where
  | one (d : Doc)
  | many (ds : List Doc)
deriving DecidableEq, Repr

/-- Modelled from the spec: the insert facade delivers the inserted id
for a single document and the ordered sequence of ids for a sequence. -/
def insert (coll : List Doc) : InsertInput → List Doc × Completion (Sum Nat (List Nat)) Err
  | .one d =>
    match insert_one coll d with
    | (coll2, .success i) => (coll2, .success (.inl i))
    | (coll2, .failure e) => (coll2, .failure e)
  | .many ds =>
    let out := insert_many coll ds
    match out.completion with
    | .success ids => (out.coll, .success (.inr ids))
    | .failure e => (out.coll, .failure e)

/-- Write Result shape for update: ok (1 success / 0 failure), n (matched
count), err (null or message), updatedExisting. -/
structure UpdateResult where
  ok : Nat
  n : Nat
  err : Option Nat
  updatedExisting : Bool
deriving DecidableEq, Repr

/-- A modification document: set the unique field `s`, or set the
unindexed field `foo` (as in set foo to bar). -/
inductive Mod where
  | setS (v : Nat)
  | setFoo (v : Nat)
deriving DecidableEq, Repr

/-- Apply a modification to one document. -/
def applyMod : Mod → Doc → Doc
  | .setS v, d => { d with s := v }
  | .setFoo v, d => { d with foo := some v }

/-- A modification of the document with the given id violates the unique
index exactly when it sets `s` to a value some other document holds. -/
def modViolates (coll : List Doc) (fid : Nat) : Mod → Bool
  | .setS v => coll.any (fun e => e.id != fid && e.s == v)
  | .setFoo _ => false

/-- Modelled from the spec: the update facade of the missing driver
module, filtering by `_id`.  A matching document is rewritten unless the
modification violates the unique index, in which case the envelope fails
with a duplicate-key error; the success value is the Write Result. -/
def update (coll : List Doc) (fid : Nat) (m : Mod) :
    List Doc × Completion UpdateResult Err :=
  match coll.find? (fun d => d.id == fid) with
  | none => (coll, .success ⟨1, 0, none, false⟩)
  | some _ =>
    if modViolates coll fid m then (coll, .failure .duplicateKey)
    else
      (coll.map (fun e => if e.id == fid then applyMod m e else e),
        .success ⟨1, 1, none, true⟩)

/-- Modelled from the spec: the save facade of the missing driver module.
A document whose id already exists replaces the stored one (unless the
unique index on `s` is violated); otherwise it is inserted.  The
completion carries the id, existing or new. -/
def save (coll : List Doc) (d : Doc) : List Doc × Completion Nat Err :=
  if coll.any (fun e => e.id == d.id) then
    if coll.any (fun e => e.id != d.id && e.s == d.s) then
      (coll, .failure .duplicateKey)
    else
      (coll.map (fun e => if e.id == d.id then d else e), .success d.id)
  else insert_one coll d

/-- Modelled from the spec: the remove facade of the missing driver
module, filtering by `_id`; the success value is a Write Result whose n
counts the removed documents. -/
def remove (coll : List Doc) (fid : Nat) :
    List Doc × Completion UpdateResult Err :=
  (coll.filter (fun d => d.id != fid),
    .success ⟨1, (coll.filter (fun d => d.id == fid)).length, none, false⟩)

/-! ## The batch cursor -/

/-- The server default chunking bound for a first batch with no explicit
batch size: 101 documents (or one megabyte, whichever comes first; the
byte threshold is not modelled, the test documents are small). -/
def serverDefaultBatch : Nat := 101

/-- State of a batch cursor: how many documents were fetched so far and
whether the cursor is exhausted (`alive` is its negation). -/
structure CursorState where
  fetched : Nat
  exhausted : Bool
deriving DecidableEq, Repr

/-- The `alive` flag the driver exposes on its AsyncCursor. -/
def CursorState.alive (st : CursorState) : Bool := !st.exhausted

/-- Result of one call to get_more: the new cursor state, the batch of
documents delivered to the callback (documents are identified by their
position in the full result sequence), the number of documents the fetch
requested, and whether a request was issued to the server at all. -/
structure FetchResult where
  state : CursorState
  batch : List Nat
  requested : Nat
  requestIssued : Bool
deriving DecidableEq, Repr

/-- Modelled from the spec: how many documents the next fetch requests.
With an explicit batch size and limit the request is
min(batch_size, limit - fetched_so_far); with no explicit batch size the
first batch is bounded by the server default chunking and subsequent
batches return the remainder. -/
def requestedSize (total : Nat) (batch_size limit : Option Nat) (fetched : Nat) : Nat :=
  match batch_size, limit with
  | some b, some l => min b (l - fetched)
  | some b, none => b
  | none, some l =>
    if fetched == 0 then min serverDefaultBatch (l - fetched) else l - fetched
  | none, none =>
    if fetched == 0 then serverDefaultBatch else total - fetched

/-- Modelled from the spec: one batch fetch (get_more) of the missing
AsyncCursor against a server holding `total` matching documents.  On an
already exhausted cursor it is a no-op delivering an empty batch with no
request issued.  Otherwise the fetch requests `requestedSize` documents,
the server returns as many as remain, and `alive` is recomputed: false
iff the limit is reached or the server-side cursor is drained. -/
def get_more (total : Nat) (batch_size limit : Option Nat) (st : CursorState) :
    FetchResult :=
  if st.exhausted then ⟨st, [], 0, false⟩
  else
    let r := requestedSize total batch_size limit st.fetched
    let k := min r (total - st.fetched)
    let f := st.fetched + k
    let limitReached := match limit with
      | some l => decide (l ≤ f)
      | none => false
    let serverDone := decide (total ≤ f)
    ⟨⟨f, limitReached || serverDone⟩, List.range' st.fetched k, r, true⟩

/-- Modelled from the spec: the fetch loop the tests run — the callback
keeps calling get_more while the cursor is alive — collecting every
delivered batch in fetch order together with the final cursor state.
Fuel bounds the recursion; any fuel at least the number of batches is
enough. -/
def drive (total : Nat) (batch_size limit : Option Nat) :
    Nat → CursorState → List (List Nat) × CursorState
  | 0, st => ([], st)
  | fuel + 1, st =>
    if st.exhausted then ([], st)
    else
      let r := get_more total batch_size limit st
      let rest := drive total batch_size limit fuel r.state
      (r.batch :: rest.1, rest.2)

/-- The handle a find call returns. -/
inductive FindHandle where
  | async_cursor (st : CursorState)
  | regular_cursor
deriving DecidableEq, Repr

/-- Whether the handle is the asynchronous batch cursor. -/
def FindHandle.isAsyncCursor : FindHandle → Bool
  | .async_cursor _ => true
  | .regular_cursor => false

/-- Modelled from the spec: the find facade of the missing driver module.
With a callback it creates an AsyncCursor (and immediately requests the
first batch); without a callback it falls back to the regular blocking
cursor of the reference client. -/
def find {γ : Type} (batch_size limit : Option Nat) (callback : Option γ) :
    FindHandle :=
  match callback with
  | some _ => .async_cursor ⟨0, false⟩
  | none => .regular_cursor

/-! ## The event loop driver -/

/-- An asynchronous operation as the loop sees it: when it was issued
(loop time), its latency, and the result its completion will carry. -/
structure Op (α : Type) where
  issuedAt : Nat
  latency : Nat
  result : α
deriving DecidableEq, Repr

/-- The loop time at which the operation completes. -/
def completionTime {α : Type} (o : Op α) : Nat := o.issuedAt + o.latency

/-- Modelled from the spec: the single-threaded cooperative event loop
driver of the missing driver module, advanced tick by tick up to the
horizon; at each tick it fires the completions that are due and hands
each result to its callback, so delivery follows completion time, not
issuance order.  Returns the operations in delivery order. -/
def runLoopOps {α : Type} (horizon : Nat) (ops : List (Op α)) : List (Op α) :=
  ((List.range horizon).map
    (fun t => ops.filter (fun o => completionTime o == t))).flatten

/-- The results a shared collector receives, in delivery order. -/
def runLoop {α : Type} (horizon : Nat) (ops : List (Op α)) : List α :=
  (runLoopOps horizon ops).map Op.result

/-! ## The synchronous bridge -/

/-- Modelled from the spec: an outstanding Operation Envelope as the
bridge sees it — its handle, the loop time at which it completes (none
if it never does), and the completion it will carry. -/
structure Envelope (α : Type) where
  handle : Nat
  completesAt : Option Nat
  value : Completion α Err
deriving DecidableEq, Repr

/-- Bridge state: handles of timed-out envelopes left outstanding, whose
eventual completions are discarded. -/
structure Bridge where
  discarded : List Nat
deriving DecidableEq, Repr

/-- The default of the TIMEOUT_SEC setting, in seconds. -/
def TIMEOUT_SEC_DEFAULT : Nat := 5

/-- Modelled from the spec: the recognized timeout configuration setting
(the TIMEOUT_SEC environment variable of the synchro test runner),
default 5 seconds. -/
def timeout_sec (config : Option Nat) : Nat :=
  match config with
  | some s => s
  | none => TIMEOUT_SEC_DEFAULT

/-- Outcome of a blocking bridge call: the new bridge state and either
the result or the raised error. -/
structure BlockingOutcome (α : Type) where
  bridge : Bridge
  outcome : Except Err α
deriving Repr

/-- Modelled from the spec: call_blocking of the missing synchronous
bridge.  It drives the loop until its own envelope completes or the
deadline now + timeout elapses.  On completion in time it returns the
result or raises the carried error; on deadline it raises a timeout
error and leaves the envelope outstanding, recording its handle so the
late completion is discarded rather than delivered to a later call. -/
def call_blocking {α : Type} (br : Bridge) (now : Nat) (config : Option Nat)
    (env : Envelope α) : BlockingOutcome α :=
  match env.completesAt with
  | some t =>
    if t ≤ now + timeout_sec config then
      ⟨br, match env.value with
        | .success a => .ok a
        | .failure e => .error e⟩
    else ⟨⟨env.handle :: br.discarded⟩, .error .timeout⟩
  | none => ⟨⟨env.handle :: br.discarded⟩, .error .timeout⟩

/-! ## Reference shape of the batch sequence -/

/-- The batch sequence a cursor with batch size B produces for the R
documents starting at position f: full batches of size B, then the
remainder. -/
def specBatches (B f R : Nat) : List (List Nat) :=
  if _hR : R = 0 then []
  else if _hB : B = 0 then []
  else if R ≤ B then [List.range' f R]
  else List.range' f B :: specBatches B (f + B) (R - B)
termination_by R
decreasing_by omega

theorem specBatches_flatten (B : Nat) (hB : 0 < B) :
    ∀ R f, (specBatches B f R).flatten = List.range' f R := by
  intro R
  induction R using Nat.strong_induction_on with
  | _ R ih =>
    intro f
    rw [specBatches]
    split_ifs with h1 h2 h3
    · simp [h1]
    · omega
    · simp
    · simp only [List.flatten_cons]
      rw [ih (R - B) (by omega) (f + B), List.range'_append_1]
      congr 1
      omega

theorem ceil_div_eq (B R : Nat) (hB : 0 < B) :
    (R + B - 1) / B = R / B + (if R % B = 0 then 0 else 1) := by
  have h := Nat.div_add_mod R B
  have hrB : R % B < B := Nat.mod_lt _ hB
  by_cases hr0 : R % B = 0
  · rw [if_pos hr0]
    have h2 : R + B - 1 = B * (R / B) + (B - 1) := by omega
    have h3 : (B - 1) / B = 0 := Nat.div_eq_of_lt (by omega)
    rw [h2, Nat.mul_add_div hB, h3]
  · rw [if_neg hr0]
    have h4 : B * (R / B + 1) = B * (R / B) + B := by ring
    have h2 : R + B - 1 = B * (R / B + 1) + (R % B - 1) := by omega
    have h3 : (R % B - 1) / B = 0 := Nat.div_eq_of_lt (by omega)
    rw [h2, Nat.mul_add_div hB, h3]

/-- The batch lengths: full batches of size B, then the remainder R mod B
unless it is zero. -/
theorem specBatches_lengths (B : Nat) (hB : 0 < B) :
    ∀ R f, (specBatches B f R).map List.length =
      (if R % B = 0 then List.replicate (R / B) B
        else List.replicate (R / B) B ++ [R % B]) := by
  intro R
  induction R using Nat.strong_induction_on with
  | _ R ih =>
    intro f
    by_cases h1 : R = 0
    · simp [specBatches, h1]
    · rw [specBatches, dif_neg h1, dif_neg (by omega : ¬B = 0)]
      by_cases h3 : R ≤ B
      · rw [if_pos h3]
        by_cases hEq : R = B
        · subst hEq
          simp [Nat.mod_self, Nat.div_self hB]
        · have hlt : R < B := by omega
          simp [Nat.mod_eq_of_lt hlt, Nat.div_eq_of_lt hlt, h1]
      · rw [if_neg h3]
        have hmod : R % B = (R - B) % B := by
          conv_lhs => rw [show R = R - B + B by omega]
          rw [Nat.add_mod_right]
        have hdiv : R / B = (R - B) / B + 1 := by
          conv_lhs => rw [show R = R - B + B by omega]
          rw [Nat.add_div_right _ hB]
        simp only [List.map_cons, List.length_range']
        rw [ih (R - B) (by omega) (f + B), hmod, hdiv]
        by_cases hm : (R - B) % B = 0
        · simp [hm, List.replicate_succ]
        · simp [hm, List.replicate_succ]

/-- With an explicit batch size and limit, the fetch that reaches the
limit delivers the remaining documents and exhausts the cursor, whatever
liveness the server would report. -/
theorem get_more_step_last (B L total f : Nat) (hf : f < L) (hLt : L ≤ total)
    (hc : L - f ≤ B) :
    get_more total (some B) (some L) ⟨f, false⟩ =
      ⟨⟨L, true⟩, List.range' f (L - f), min B (L - f), true⟩ := by
  simp only [get_more, requestedSize]
  have hmin2 : (L - f) ⊓ (total - f) = L - f := by omega
  have hfk : f + (L - f) = L := by omega
  simp [hmin2, hfk]
  omega

/-- With an explicit batch size and limit, a fetch strictly below the
limit delivers a full batch and leaves the cursor alive. -/
theorem get_more_step_mid (B L total f : Nat) (hf : B < L - f) (hLt : L ≤ total) :
    get_more total (some B) (some L) ⟨f, false⟩ =
      ⟨⟨f + B, false⟩, List.range' f B, B, true⟩ := by
  simp only [get_more, requestedSize]
  have hmin : min B (L - f) = B := by omega
  have hmin2 : B ⊓ (total - f) = B := by omega
  have h1 : ¬(L ≤ f + B) := by omega
  have h2 : ¬(total ≤ f + B) := by omega
  simp [hmin, hmin2, h1, h2]

/-- An exhausted cursor issues no further fetch: the loop stops at once
with no batches and the state untouched. -/
theorem drive_exhausted (total : Nat) (bs lim : Option Nat) :
    ∀ fuel (st : CursorState), st.exhausted = true →
      drive total bs lim fuel st = ([], st) := by
  intro fuel st h
  cases fuel with
  | zero => rfl
  | succ n => simp [drive, h]

/-- The fetch loop with explicit batch size B and limit L over a server
holding at least L documents delivers exactly the reference batch
sequence and stops exhausted at L. -/
theorem drive_spec (B L total : Nat) (hB : 0 < B) (hLt : L ≤ total) :
    ∀ fuel f, f < L → L - f ≤ fuel →
      drive total (some B) (some L) fuel ⟨f, false⟩ =
        (specBatches B f (L - f), ⟨L, true⟩) := by
  intro fuel
  induction fuel with
  | zero => intro f hf hfuel; omega
  | succ n ih =>
    intro f hf hfuel
    rw [drive]
    simp only [Bool.false_eq_true, if_false]
    by_cases hc : L - f ≤ B
    · rw [get_more_step_last B L total f hf hLt hc]
      rw [drive_exhausted total (some B) (some L) n ⟨L, true⟩ rfl]
      rw [specBatches]
      rw [dif_neg (by omega : ¬(L - f) = 0), dif_neg (by omega : ¬B = 0),
        if_pos hc]
    · rw [get_more_step_mid B L total f (by omega) hLt]
      rw [ih (f + B) (by omega) (by omega)]
      conv_rhs => rw [specBatches]
      rw [dif_neg (by omega : ¬(L - f) = 0), dif_neg (by omega : ¬B = 0),
        if_neg hc]
      have h5 : L - (f + B) = L - f - B := by omega
      rw [h5]

/-! ## Claims -/

/-- C1: a query with explicit limit L and batch size B (0 < B ≤ L)
against a server holding at least L matching documents delivers
ceil(L/B) batches in ascending fetch order, each of size B except a last
one of size L mod B (or B when L mod B = 0); every fetch requests no
more than min(batch_size, limit - fetched_so_far) documents; and the
cursor stops fetching and is not alive exactly after the batch that
brings the delivered total to L, regardless of server-reported
liveness. -/
theorem batch_size_limit_schedule (B L total : Nat)
    (hB : 0 < B) (hBL : B ≤ L) (hLt : L ≤ total) :
    (drive total (some B) (some L) L ⟨0, false⟩).1.length = (L + B - 1) / B
    ∧ (drive total (some B) (some L) L ⟨0, false⟩).1.map List.length =
        (if L % B = 0 then List.replicate (L / B) B
          else List.replicate (L / B) B ++ [L % B])
    ∧ (drive total (some B) (some L) L ⟨0, false⟩).1.flatten = List.range L
    ∧ (drive total (some B) (some L) L ⟨0, false⟩).2 = ⟨L, true⟩
    ∧ ∀ st : CursorState,
        (get_more total (some B) (some L) st).requested
          ≤ min B (L - st.fetched) := by
  have hL : 0 < L := lt_of_lt_of_le hB hBL
  have hd := drive_spec B L total hB hLt L 0 hL (by omega)
  rw [show L - 0 = L from rfl] at hd
  refine ⟨?_, ?_, ?_, ?_, ?_⟩
  · rw [hd]
    have hchar := specBatches_lengths B hB L 0
    have hlen : (specBatches B 0 L).length =
        (List.map List.length (specBatches B 0 L)).length :=
      (List.length_map _ _).symm
    rw [hlen, hchar, ceil_div_eq B L hB]
    by_cases hm : L % B = 0
    · simp [hm]
    · simp [hm]
  · rw [hd]
    exact specBatches_lengths B hB L 0
  · rw [hd]
    rw [specBatches_flatten B hB L 0, List.range_eq_range']
  · rw [hd]
  · intro st
    by_cases he : st.exhausted = true
    · simp [get_more, he]
    · simp [get_more, he, requestedSize]

/-- Witness for C1 at the numbers of the batch-size test: batch size 3,
limit 15, a 200-document collection — five batches of three documents,
cursor exhausted at 15. -/
theorem batch_size_limit_schedule_witness :
    0 < 3 ∧ 3 ≤ 15 ∧ 15 ≤ 200 ∧
      (drive 200 (some 3) (some 15) 15 ⟨0, false⟩).1.map List.length =
        List.replicate 5 3 ∧
      (drive 200 (some 3) (some 15) 15 ⟨0, false⟩).2 = ⟨15, true⟩ := by
  have h := batch_size_limit_schedule 3 15 200 (by decide) (by decide) (by decide)
  refine ⟨by decide, by decide, by decide, ?_, h.2.2.2.1⟩
  have h2 := h.2.1
  simpa using h2

/-- A clean prefix runs through insert_many untouched: the documents are
appended in order and their ids collected, the remainder of the sequence
continuing from the grown collection. -/
theorem insert_many_clean_prefix (pre : List Doc) :
    ∀ (coll rest : List Doc), insertsCleanly coll pre = true →
      insert_many coll (pre ++ rest) =
        ⟨(insert_many (coll ++ pre) rest).coll,
          pre ++ (insert_many (coll ++ pre) rest).attempted,
          match (insert_many (coll ++ pre) rest).completion with
          | .success ids => .success (pre.map Doc.id ++ ids)
          | .failure e => .failure e⟩ := by
  induction pre with
  | nil =>
    intro coll rest _
    simp
    cases h : (insert_many coll rest).completion <;> (simp only [h]; rw [← h])
  | cons d pre ih =>
    intro coll rest hclean
    rw [insertsCleanly] at hclean
    have hd : violatesUnique coll d = false := by
      cases hv : violatesUnique coll d <;> simp [hv] at hclean ⊢
    have hrest : insertsCleanly (coll ++ [d]) pre = true := by
      cases hv : violatesUnique coll d <;> simp [hv] at hclean
      · exact hclean
    rw [List.cons_append, insert_many, if_neg (by simp [hd])]
    rw [ih (coll ++ [d]) rest hrest]
    have hassoc : coll ++ [d] ++ pre = coll ++ d :: pre := by simp
    rw [hassoc]
    cases h : (insert_many (coll ++ d :: pre) rest).completion <;> simp

theorem insert_many_all_clean (ds : List Doc) :
    ∀ coll, insertsCleanly coll ds = true →
      insert_many coll ds = ⟨coll ++ ds, ds, .success (ds.map Doc.id)⟩ := by
  intro coll h
  have h2 := insert_many_clean_prefix ds coll [] h
  rw [List.append_nil] at h2
  rw [h2]
  simp [insert_many]

/-- C2: an insert of a sequence in which the first conflict sits between
a clean prefix and a trailing suffix issues the writes in input order, attempts
nothing past the failing document, keeps the prefix persisted and the
collection otherwise unchanged, and delivers exactly one completion: a
duplicate-key error with no result. -/
theorem insert_fail_fast (coll pre post : List Doc) (bad : Doc)
    (hpre : insertsCleanly coll pre = true)
    (hbad : violatesUnique (coll ++ pre) bad = true) :
    (insert_many coll (pre ++ bad :: post)).coll = coll ++ pre
    ∧ (insert_many coll (pre ++ bad :: post)).attempted = pre ++ [bad]
    ∧ (insert_many coll (pre ++ bad :: post)).completion =
        .failure .duplicateKey
    ∧ ExactlyOne (insert_many coll (pre ++ bad :: post)).completion.delivered := by
  have h2 := insert_many_clean_prefix pre coll (bad :: post) hpre
  rw [insert_many, if_pos (by simp [hbad])] at h2
  rw [h2]
  refine ⟨rfl, by simp, rfl, Or.inr ⟨rfl, rfl⟩⟩

/-- Witness for C2 at the shape of the bad-bulk-insert test: document
201 inserts, 202 collides on the unique field with the stored document
4, 203 is never attempted. -/
theorem insert_fail_fast_witness :
    insertsCleanly [⟨4, 104, none⟩] [⟨201, 301, none⟩] = true
    ∧ violatesUnique ([⟨4, 104, none⟩] ++ [⟨201, 301, none⟩]) ⟨202, 104, none⟩ = true
    ∧ (insert_many [⟨4, 104, none⟩]
        ([⟨201, 301, none⟩] ++ ⟨202, 104, none⟩ :: [⟨203, 303, none⟩])).coll =
        [⟨4, 104, none⟩] ++ [⟨201, 301, none⟩]
    ∧ (insert_many [⟨4, 104, none⟩]
        ([⟨201, 301, none⟩] ++ ⟨202, 104, none⟩ :: [⟨203, 303, none⟩])).completion =
        .failure .duplicateKey :=
  have h := insert_fail_fast [⟨4, 104, none⟩] [⟨201, 301, none⟩]
    [⟨203, 303, none⟩] ⟨202, 104, none⟩ (by decide) (by decide)
  ⟨by decide, by decide, h.1, h.2.2.1⟩

/-- C9: a successful insert delivers the inserted id for a single
document, and the ordered sequence of inserted ids, in input order, for
a sequence of documents. -/
theorem insert_delivers_ids (coll : List Doc) (d : Doc) (ds : List Doc)
    (h1 : violatesUnique coll d = false)
    (h2 : insertsCleanly coll ds = true) :
    (insert coll (.one d)).2 = .success (.inl d.id)
    ∧ (insert coll (.many ds)).2 = .success (.inr (ds.map Doc.id)) := by
  constructor
  · simp [insert, insert_one, h1]
  · simp [insert, insert_many_all_clean ds coll h2]

/-- Witness for C9: inserting document 201 alone yields id 201;
inserting documents 205 and 206 as a sequence yields [205, 206]. -/
theorem insert_delivers_ids_witness :
    violatesUnique [⟨4, 104, none⟩] ⟨201, 301, none⟩ = false
    ∧ insertsCleanly [⟨4, 104, none⟩] [⟨205, 305, none⟩, ⟨206, 306, none⟩] = true
    ∧ (insert [⟨4, 104, none⟩] (.one ⟨201, 301, none⟩)).2 = .success (.inl 201)
    ∧ (insert [⟨4, 104, none⟩]
        (.many [⟨205, 305, none⟩, ⟨206, 306, none⟩])).2 =
        .success (.inr [205, 206]) :=
  have h := insert_delivers_ids [⟨4, 104, none⟩] ⟨201, 301, none⟩
    [⟨205, 305, none⟩, ⟨206, 306, none⟩] (by decide) (by decide)
  ⟨by decide, by decide, h.1, h.2⟩

/-- Each completion carries exactly one of the pair. -/
theorem exactly_one_of_completion {α ε : Type} (c : Completion α ε) :
    ExactlyOne c.delivered := by
  cases c
  · exact Or.inl ⟨rfl, rfl⟩
  · exact Or.inr ⟨rfl, rfl⟩

/-- The completion a cursor fetch envelope delivers to the find or
get_more callback: the batch as the result. -/
def fetchCompletion (fr : FetchResult) : Completion (List Nat) Err :=
  .success fr.batch

/-- C3: every operation completion — find and get_more batch fetches,
insert of a document or a sequence, update, save, remove — delivers a
(result, error) pair of which exactly one is non-null: never both set,
never neither. -/
theorem one_of_result_error :
    (∀ (total : Nat) (bs lim : Option Nat) (st : CursorState),
      ExactlyOne (fetchCompletion (get_more total bs lim st)).delivered)
    ∧ (∀ (coll : List Doc) (input : InsertInput),
        ExactlyOne (insert coll input).2.delivered)
    ∧ (∀ (coll : List Doc) (fid : Nat) (m : Mod),
        ExactlyOne (update coll fid m).2.delivered)
    ∧ (∀ (coll : List Doc) (d : Doc), ExactlyOne (save coll d).2.delivered)
    ∧ (∀ (coll : List Doc) (fid : Nat),
        ExactlyOne (remove coll fid).2.delivered) := by
  exact ⟨fun _ _ _ _ => exactly_one_of_completion _,
    fun _ _ => exactly_one_of_completion _,
    fun _ _ _ => exactly_one_of_completion _,
    fun _ _ => exactly_one_of_completion _,
    fun _ _ => exactly_one_of_completion _⟩

/-- C7 fails as frozen: the bad-update test updates the one document
with id 5, a filter matching exactly one existing document, yet the
completion is a duplicate-key error rather than the successful Write
Result, because the modification collides with the unique index. -/
theorem update_one_match_counterexample :
    ((([⟨4, 104, none⟩, ⟨5, 105, none⟩] : List Doc).filter
        (fun d => d.id == 5)).length = 1)
    ∧ (update [⟨4, 104, none⟩, ⟨5, 105, none⟩] 5 (.setS 104)).2 ≠
        .success ⟨1, 1, none, true⟩ := by
  decide

/-- C7 (amended): an update whose filter matches exactly one existing
document and whose modification does not violate the unique index
delivers the Write Result ok = 1, n = 1, err = null,
updatedExisting = true. -/
theorem update_one_match_result (coll : List Doc) (fid : Nat) (m : Mod)
    (hmatch : (coll.filter (fun d => d.id == fid)).length = 1)
    (hok : modViolates coll fid m = false) :
    (update coll fid m).2 = .success ⟨1, 1, none, true⟩ := by
  cases hfind : coll.find? (fun d => d.id == fid) with
  | none =>
    rw [List.find?_eq_none] at hfind
    rw [List.filter_eq_nil_iff.mpr hfind] at hmatch
    simp at hmatch
  | some d =>
    simp [update, hfind, hok]

/-- Witness for C7 (amended): setting the unindexed field on the single
document with id 5 succeeds with the claimed Write Result. -/
theorem update_one_match_result_witness :
    ((([⟨4, 104, none⟩, ⟨5, 105, none⟩] : List Doc).filter
        (fun d => d.id == 5)).length = 1)
    ∧ modViolates [⟨4, 104, none⟩, ⟨5, 105, none⟩] 5 (.setFoo 7) = false
    ∧ (update [⟨4, 104, none⟩, ⟨5, 105, none⟩] 5 (.setFoo 7)).2 =
        .success ⟨1, 1, none, true⟩ :=
  ⟨by decide, by decide,
    update_one_match_result [⟨4, 104, none⟩, ⟨5, 105, none⟩] 5 (.setFoo 7)
      (by decide) (by decide)⟩

/-- C4: the loop delivers completions in order of completion time, not
issuance order.  In general the delivery order is sorted by completion
time; in particular three find calls issued in order slow (completes at
tick 10), fast (tick 2), medium (tick 5) reach the shared collector in
order fast, medium, slow. -/
theorem delivery_follows_latency :
    (∀ (α : Type) (r1 r2 r3 : α),
      runLoop 11 [⟨1, 9, r1⟩, ⟨2, 0, r2⟩, ⟨3, 2, r3⟩] = [r2, r3, r1])
    ∧ (∀ (α : Type) (horizon : Nat) (ops : List (Op α)),
        (runLoopOps horizon ops).Pairwise
          (fun a b => completionTime a ≤ completionTime b)) := by
  constructor
  · intro α r1 r2 r3
    rfl
  · intro α horizon ops
    rw [runLoopOps, List.pairwise_flatten]
    constructor
    · intro l hl
      rw [List.mem_map] at hl
      obtain ⟨t, _, rfl⟩ := hl
      apply List.pairwise_of_forall_mem_list
      intro a ha b hb
      rw [List.mem_filter] at ha hb
      have ha2 : completionTime a = t := by simpa using ha.2
      have hb2 : completionTime b = t := by simpa using hb.2
      omega
    · rw [List.pairwise_map]
      apply List.Pairwise.imp ?_ (List.pairwise_lt_range horizon)
      intro t1 t2 hlt a ha b hb
      rw [List.mem_filter] at ha hb
      have ha2 : completionTime a = t1 := by simpa using ha.2
      have hb2 : completionTime b = t2 := by simpa using hb.2
      omega

/-- C5: a blocking bridge call whose envelope has not completed by
now + timeout raises a timeout error and leaves the envelope
outstanding, its handle recorded as discarded; the outcome of any later
blocking call depends only on its own envelope, never on discarded
completions; the timeout setting defaults to 5 seconds and is
overridable by configuration. -/
theorem bridge_timeout (α β : Type) (br : Bridge) (now : Nat)
    (cfg : Option Nat) (env : Envelope α)
    (h : ∀ t, env.completesAt = some t → now + timeout_sec cfg < t) :
    (call_blocking br now cfg env).outcome = .error .timeout
    ∧ env.handle ∈ (call_blocking br now cfg env).bridge.discarded
    ∧ (∀ (br2 : Bridge) (now2 : Nat) (env2 : Envelope β),
        (call_blocking br2 now2 cfg env2).outcome =
          (call_blocking ⟨[]⟩ now2 cfg env2).outcome)
    ∧ timeout_sec none = 5
    ∧ (∀ s, timeout_sec (some s) = s) := by
  have hlate : ∀ (br3 : Bridge),
      call_blocking br3 now cfg env =
        ⟨⟨env.handle :: br3.discarded⟩, .error .timeout⟩ := by
    intro br3
    cases hc : env.completesAt with
    | none => simp [call_blocking, hc]
    | some t =>
      have := h t hc
      simp [call_blocking, hc, if_neg (by omega : ¬t ≤ now + timeout_sec cfg)]
  refine ⟨by rw [hlate br], by rw [hlate br]; exact List.mem_cons_self _ _,
    ?_, rfl, fun s => rfl⟩
  intro br2 now2 env2
  cases hc : env2.completesAt with
  | none => simp [call_blocking, hc]
  | some t =>
    by_cases ht : t ≤ now2 + timeout_sec cfg
    · simp [call_blocking, hc, ht]
    · simp [call_blocking, hc, ht]

/-- Witness for C5: an envelope that never completes times out under the
default 5-second setting and its handle 7 is left discarded. -/
theorem bridge_timeout_witness :
    (call_blocking ⟨[]⟩ 0 none (⟨7, none, .success 0⟩ : Envelope Nat)).outcome =
      .error .timeout
    ∧ (7 : Nat) ∈
        (call_blocking ⟨[]⟩ 0 none
          (⟨7, none, .success 0⟩ : Envelope Nat)).bridge.discarded
    ∧ timeout_sec none = 5 :=
  have h := bridge_timeout Nat Nat ⟨[]⟩ 0 none ⟨7, none, .success 0⟩
    (fun t ht => nomatch ht)
  ⟨h.1, h.2.1, h.2.2.2.1⟩

/-- C6: a query with no explicit batch size on a 200-document collection
delivers a first batch of exactly 101 documents (the server default
chunking bound) and a second batch of the remaining 99, after which the
cursor is exhausted. -/
theorem default_batch_two_hundred :
    (drive 200 none none 2 ⟨0, false⟩).1 =
      [List.range' 0 serverDefaultBatch, List.range' 101 99]
    ∧ (drive 200 none none 2 ⟨0, false⟩).1.map List.length = [101, 99]
    ∧ (drive 200 none none 2 ⟨0, false⟩).2 = ⟨200, true⟩ := by
  refine ⟨by decide, by decide, by decide⟩

/-- C8: get_more on a cursor already exhausted is a no-op — it delivers
an empty batch immediately, issues no request to the server, and leaves
the cursor state unchanged. -/
theorem get_more_exhausted_noop (total : Nat) (bs lim : Option Nat)
    (st : CursorState) (h : st.exhausted = true) :
    get_more total bs lim st = ⟨st, [], 0, false⟩ := by
  simp [get_more, h]

/-- Witness for C8 on the exhausted cursor of the batch-size test. -/
theorem get_more_exhausted_noop_witness :
    (⟨15, true⟩ : CursorState).exhausted = true
    ∧ get_more 200 (some 3) (some 15) ⟨15, true⟩ = ⟨⟨15, true⟩, [], 0, false⟩ :=
  ⟨by decide, get_more_exhausted_noop 200 (some 3) (some 15) ⟨15, true⟩ (by decide)⟩

/-- C10: find returns the asynchronous batch cursor exactly when a
callback is passed; with no callback it returns the regular blocking
cursor. -/
theorem find_cursor_kind (γ : Type) (bs lim : Option Nat)
    (callback : Option γ) :
    (find bs lim callback).isAsyncCursor = callback.isSome := by
  cases callback <;> rfl

end AsyncMongo
